import Mathlib

/-!
# thunderdrive-go: the client of `client.go`

A shallow embedding of the Go package `thunderdrive` (file `client.go`) and the
properties of its session handling, CSRF-token derivation and pagination loop.

Conventions of the embedding.

* A Go `string` is a Lean `String`; a character stands for one byte wherever the
  code works byte-wise (`url.QueryUnescape`).
* A Go pointer that may be `nil` (`*string`) is an `Option`.
* A Go `int` is an `Int` kept in the 64-bit range by `wrapInt` where the code
  does arithmetic on it (`page++`).
* An HTTP exchange is a call of a `Transport`: the request that resty would put
  on the wire goes in, the decoded result (or a transport error) comes out.
  Every function that talks to the service returns the list of requests it
  sent next to its outcome.
* `log.Fatal(err)` ends the process; it is the `Except.error` outcome.
* `log.Println` writes to the log only and is left out.
-/

set_option autoImplicit false

namespace thunderdrive

/-! ## Data model -/

/-- The constant `BaseUrl`. -/
def BaseUrl : String := "https://app.thunderdrive.io"

/-- A cookie as `net/http` hands it out: the fields `getXsrfToken` reads. -/
structure Cookie where
  Name : String
  Value : String
  deriving DecidableEq, Repr

/-- The cookie jar of the HTTP client: `Cookies u` is what `Jar.Cookies(u)` returns. -/
structure CookieJar where
  Cookies : String → List Cookie

/-- The resty client behind the pointer `httpClient`: host, default headers, jar. -/
structure RestyClient where
  HostURL : String
  Header : List (String × String)
  Jar : CookieJar

/-- The struct `UserDetails.User`. -/
structure UserDetailsUser where
  ID : Int
  deriving DecidableEq, Repr

/-- The struct `UserDetails`. -/
structure UserDetails where
  User : UserDetailsUser
  deriving DecidableEq, Repr

/-- The struct `Client`. -/
structure Client where
  httpClient : RestyClient
  userDetails : UserDetails

/-- The struct `LoginRequestPayload`. -/
structure LoginRequestPayload where
  Remember : Bool
  Email : String
  Password : String
  deriving DecidableEq, Repr

/-- The struct `LoginResponsePayload`. -/
structure LoginResponsePayload where
  Data : String
  Status : String
  deriving DecidableEq, Repr

/-- The struct `Folder` (the field `Type` is written `Type_`). -/
structure Folder where
  ID : Int
  Name : String
  ParentID : Int
  Path : String
  Type_ : String
  Hash : String
  URL : String
  deriving DecidableEq, Repr

/-- The struct `FoldersResponsePayload`. -/
structure FoldersResponsePayload where
  Folders : List Folder
  Status : String
  deriving DecidableEq, Repr

/-- The struct `User`. -/
structure User where
  Email : String
  ID : Int
  Avatar : String
  OwnsEntry : Bool
  DisplayName : String
  deriving DecidableEq, Repr

/-- The struct `EntryDetails` (the field `Type` is written `Type_`). -/
structure EntryDetails where
  ID : Int
  Name : String
  FileName : String
  Mime : String
  FileSize : Int
  ParentID : Int
  CreatedAt : String
  UpdatedAt : String
  DeletedAt : String
  Path : String
  PublicPath : String
  Type_ : String
  Extension : String
  Public : Int
  Thumbnail : Bool
  Hash : String
  URL : String
  Users : List User
  Tags : List String
  deriving DecidableEq, Repr

/-- The struct `GetEntriesResponsePayload`, the page envelope. -/
structure GetEntriesResponsePayload where
  CurrentPage : Int
  Data : List EntryDetails
  From : Int
  LastPage : Int
  NextPageURL : Option String
  Path : String
  PerPage : Int
  PrevPageURL : Option String
  To : Int
  Total : Int
  deriving DecidableEq, Repr

/-! ## Requests -/

/-- A value placed in a request body by `SetBody`. -/
inductive BodyValue where
  | bool (b : Bool)
  | str (s : String)
  | optStr (s : Option String)
  | strs (l : List String)
  deriving DecidableEq, Repr

/-- A resty request as it is executed: method, path and what the setters stored. -/
structure Request where
  Method : String
  URL : String
  Header : List (String × String)
  QueryParam : List (String × String)
  FormData : List (String × String)
  Files : List (String × String)
  Body : List (String × BodyValue)
  deriving DecidableEq, Repr

/-- A transport error, as returned in `err` by resty's `Get` and `Post`. -/
abbrev TransportError := String

/-- The service seen through resty: request in, decoded result or error out. -/
abbrev Transport (ρ : Type) := Request → Except TransportError ρ

/-- What a call did: the requests sent, in order, and how the call ended
(`Except.error e` is `log.Fatal(e)`). -/
structure Run (α : Type) where
  sent : List Request
  outcome : Except TransportError α

/-- Store `v` under key `k`, replacing an earlier value (`http.Header.Set`). -/
def setKey {β : Type} (k : String) (v : β) : List (String × β) → List (String × β)
  | [] => [(k, v)]
  | (k', v') :: rest => if k' = k then (k, v) :: rest else (k', v') :: setKey k v rest

/-- Read key `k` of a key-value store. -/
def getKey {β : Type} (k : String) : List (String × β) → Option β
  | [] => none
  | (k', v') :: rest => if k' = k then some v' else getKey k rest

/-- The call `httpClient.R()`: a fresh request. -/
def RestyClient.R (_c : RestyClient) : Request :=
  { Method := "", URL := "", Header := [], QueryParam := [], FormData := [], Files := [], Body := [] }

/-- The setter `SetHeader`. -/
def Request.SetHeader (r : Request) (header value : String) : Request :=
  { r with Header := setKey header value r.Header }

/-- The setter `SetBody`. -/
def Request.SetBody (r : Request) (body : List (String × BodyValue)) : Request :=
  { r with Body := body }

/-- The setter `SetQueryParams`: every entry of the map is set. -/
def Request.SetQueryParams (r : Request) (params : List (String × String)) : Request :=
  { r with QueryParam := params.foldl (fun q kv => setKey kv.1 kv.2 q) r.QueryParam }

/-- The setter `SetFormData`: every entry of the map is set. -/
def Request.SetFormData (r : Request) (data : List (String × String)) : Request :=
  { r with FormData := data.foldl (fun q kv => setKey kv.1 kv.2 q) r.FormData }

/-- The setter `SetFile`. -/
def Request.SetFile (r : Request) (param filePath : String) : Request :=
  { r with Files := r.Files ++ [(param, filePath)] }

/-- The request that `Post(url)` executes. -/
def Request.Post (r : Request) (url : String) : Request :=
  { r with Method := "POST", URL := url }

/-- The request that `Get(url)` executes. -/
def Request.Get (r : Request) (url : String) : Request :=
  { r with Method := "GET", URL := url }

/-! ## `net/url`: query unescaping -/

/-- The helper `ishex` of `net/url`. -/
def ishex (c : Char) : Bool :=
  ('0' ≤ c && c ≤ '9') || ('a' ≤ c && c ≤ 'f') || ('A' ≤ c && c ≤ 'F')

/-- The helper `unhex` of `net/url`. -/
def unhex (c : Char) : Nat :=
  if '0' ≤ c && c ≤ '9' then c.toNat - 48
  else if 'a' ≤ c && c ≤ 'f' then c.toNat - 97 + 10
  else if 'A' ≤ c && c ≤ 'F' then c.toNat - 65 + 10
  else 0

/-- First pass of `unescape`: every `%` is followed by two hex digits. -/
def wellFormed : List Char → Bool
  | [] => true
  | '%' :: a :: b :: rest => ishex a && ishex b && wellFormed rest
  | '%' :: _ => false
  | _ :: rest => wellFormed rest

/-- Second pass of `unescape` in query-component mode: `%XY` becomes the byte
`16 * X + Y`, `+` becomes a blank, every other byte is kept. -/
def unescapeBytes : List Char → List Char
  | [] => []
  | '%' :: a :: b :: rest => Char.ofNat (unhex a * 16 + unhex b) :: unescapeBytes rest
  | '+' :: rest => Char.ofNat 32 :: unescapeBytes rest
  | c :: rest => c :: unescapeBytes rest

/-- The function `url.QueryUnescape` of the Go standard library: the unescaped
string and no error, or the empty string and an `EscapeError`. -/
def QueryUnescape (s : String) : String × Option String :=
  if wellFormed s.data then (String.mk (unescapeBytes s.data), none)
  else ("", some "invalid URL escape")

/-! ## The client -/

/-- The constructor `New`: a resty client for `BaseUrl` with an empty jar. -/
def New : Client :=
  { httpClient :=
      { HostURL := BaseUrl
        Header := [("User-Agent", "Mozilla/5.0 (Macintosh; Intel Mac OS X 10_15_7) AppleWebKit/537.36 (KHTML, like Gecko) Chrome/95.0.4638.54 Safari/537.36")]
        Jar := ⟨fun _ => []⟩ }
    userDetails := ⟨⟨0⟩⟩ }

/-- The loop of `getXsrfToken` over the cookies of the jar. -/
def getXsrfToken.scan : List Cookie → String
  | [] => ""
  | cookie :: rest =>
    if cookie.Name = "XSRF-TOKEN" then (QueryUnescape cookie.Value).1
    else getXsrfToken.scan rest

/-- The method `Client.getXsrfToken`. -/
def Client.getXsrfToken (c : Client) : String :=
  getXsrfToken.scan (c.httpClient.Jar.Cookies BaseUrl)

/-- The struct `UsageResponsePayload`. -/
structure UsageResponsePayload where
  Used : Int
  Available : Int
  Status : String
  deriving DecidableEq, Repr

/-- The two standard-library decoders that `Login` applies to the `data` field.
`base64Decode s` is the byte string returned by
`base64.StdEncoding.DecodeString(s)` (its error is dropped by the code);
`jsonUnmarshal b v` is the value that `json.Unmarshal(b, &v)` leaves in `v`
(its error is dropped as well). -/
structure Codec where
  base64Decode : String → String
  jsonUnmarshal : String → UserDetails → UserDetails

/-- The JSON body made from a `LoginRequestPayload` by its field tags. -/
def LoginRequestPayload.toBody (p : LoginRequestPayload) : List (String × BodyValue) :=
  [("remember", .bool p.Remember), ("email", .str p.Email), ("password", .str p.Password)]

/-- The body of `Login`, run on its receiver `c`: the exchange, and the
receiver as the body leaves it. -/
def Login.body (codec : Codec) (t : Transport LoginResponsePayload) (c : Client)
    (email password : String) : Run Unit × Client :=
  let reqPayload : LoginRequestPayload := { Remember := true, Email := email, Password := password }
  let req := (c.httpClient.R.SetBody reqPayload.toBody).Post "/secure/auth/login"
  match t req with
  | .error err => (⟨[req], .error err⟩, c)
  | .ok response =>
    if response.Status = "success" then
      let infoDecoded := codec.base64Decode response.Data
      (⟨[req], .ok ()⟩, { c with userDetails := codec.jsonUnmarshal infoDecoded c.userDetails })
    else (⟨[req], .ok ()⟩, c)

/-- What a call of `Login` did. -/
structure LoginRun where
  /-- The requests sent. -/
  sent : List Request
  /-- How the call ended. -/
  outcome : Except TransportError Unit
  /-- The receiver `c` of the method when its body ends. -/
  receiver : Client
  /-- The `Client` of the caller after the call. -/
  caller : Client

/-- The method `Client.Login`. Its receiver is declared by value
(`func (c Client) Login`): the body runs on a copy of the caller's struct, and
the caller's struct is after the call what it was before. -/
def Client.Login (c : Client) (codec : Codec) (t : Transport LoginResponsePayload)
    (email password : String) : LoginRun :=
  let r := Login.body codec t c email password
  { sent := r.1.sent, outcome := r.1.outcome, receiver := r.2, caller := c }

/-- The method `Client.GetUsage`. -/
def Client.GetUsage (c : Client) (t : Transport UsageResponsePayload) : Run UsageResponsePayload :=
  let req := c.httpClient.R.Get "/secure/drive/user/space-usage"
  match t req with
  | .error err => ⟨[req], .error err⟩
  | .ok response => ⟨[req], .ok response⟩

/-- The method `Client.Folders`; the `nil` slice is the empty list. -/
def Client.Folders (c : Client) (t : Transport FoldersResponsePayload) : Run (List Folder) :=
  let req := c.httpClient.R.Get ("/secure/drive/users/" ++ toString c.userDetails.User.ID ++ "/folders")
  match t req with
  | .error err => ⟨[req], .error err⟩
  | .ok response =>
    if response.Status = "success" then ⟨[req], .ok response.Folders⟩
    else ⟨[req], .ok []⟩

/-- The method `Client.GetEntriesPage`. The parameters `orderBy` and `orderDir`
are not read by the body. -/
def Client.GetEntriesPage (c : Client) (t : Transport GetEntriesResponsePayload)
    (folderId : String) (page : Int) (_orderBy _orderDir : Option String) :
    Run GetEntriesResponsePayload :=
  let queryParams : List (String × String) :=
    [("orderBy", "updated_at"), ("orderDir", "desc"), ("page", toString page), ("folderId", folderId)]
  let req := (c.httpClient.R.SetQueryParams queryParams).Get "/secure/drive/entries"
  match t req with
  | .error err => ⟨[req], .error err⟩
  | .ok response => ⟨[req], .ok response⟩

/-- Two's-complement wrap-around of a 64-bit Go `int`. -/
def wrapInt (x : Int) : Int := (x + 2 ^ 63) % 2 ^ 64 - 2 ^ 63

/-- The arguments of one call of `GetEntriesPage`. -/
structure PageCall where
  folderId : String
  page : Int
  orderBy : Option String
  orderDir : Option String
  deriving DecidableEq, Repr

/-- What a call of `GetEntries` did within a budget of loop iterations: the
calls of `GetEntriesPage` made so far, the requests sent so far, and the
outcome, `none` while the loop is still running. -/
structure LoopRun where
  calls : List PageCall
  sent : List Request
  outcome : Option (Except TransportError (List EntryDetails))

/-- The loop of `GetEntries`, `for ok := true; ok; ok = ... { ... }`, entered
with `ok` true: one iteration is the body followed by the post statement, and
`fuel` bounds the number of iterations. -/
def GetEntries.loop (c : Client) (t : Transport GetEntriesResponsePayload) :
    Nat → Int → List EntryDetails → LoopRun
  | 0, _, _ => ⟨[], [], none⟩
  | fuel + 1, page, result =>
    let call := c.GetEntriesPage t "root" page none none
    match call.outcome with
    | .error err => ⟨[⟨"root", page, none, none⟩], call.sent, some (.error err)⟩
    | .ok response =>
      let result := result ++ response.Data
      let page' := wrapInt (page + 1)
      let ok : Bool := response.NextPageURL != none && response.To != response.Total
      if ok then
        let rest := GetEntries.loop c t fuel page' result
        ⟨⟨"root", page, none, none⟩ :: rest.calls, call.sent ++ rest.sent, rest.outcome⟩
      else ⟨[⟨"root", page, none, none⟩], call.sent, some (.ok result)⟩

/-- The method `Client.GetEntries`, run for at most `fuel` loop iterations.
The parameter `path` is not read by the body. -/
def Client.GetEntries (c : Client) (t : Transport GetEntriesResponsePayload) (fuel : Nat)
    (_path : String) : LoopRun :=
  GetEntries.loop c t fuel 1 []

/-- The method `Client.Remove`. -/
def Client.Remove (c : Client) (t : Transport Unit) (entryIds : List String) : Run Unit :=
  let req := ((c.httpClient.R.SetHeader "X-XSRF-TOKEN" c.getXsrfToken).SetBody
      [("_method", .str "DELETE"), ("entryIds", .strs entryIds)]).Post "/secure/drive/entries"
  match t req with
  | .error err => ⟨[req], .error err⟩
  | .ok _ => ⟨[req], .ok ()⟩

/-- The method `Client.Mkdir`. -/
def Client.Mkdir (c : Client) (t : Transport Unit) (parentId : Option String) (name : String) :
    Run Unit :=
  let req := ((c.httpClient.R.SetHeader "X-XSRF-TOKEN" c.getXsrfToken).SetBody
      [("name", .str name), ("parent_id", .optStr parentId)]).Post "/secure/drive/folders"
  match t req with
  | .error err => ⟨[req], .error err⟩
  | .ok _ => ⟨[req], .ok ()⟩

/-- The local files as `Upload` finds them: `fs path` is the result of opening
the file `path`, success or the error of the operating system. -/
abbrev FileSystem := String → Except TransportError Unit

/-- The method `Client.Upload`. The file named by `SetFile` is opened when
`Post` builds the multipart body, before the request goes to the service: if
the file cannot be opened, `Post` returns that error with no request sent and
the code ends in `log.Fatal`. Of the multipart body the request keeps the
parameter name and the path of the file. -/
def Client.Upload (c : Client) (fs : FileSystem) (t : Transport Unit) (parentId path : String) :
    Run Unit :=
  let req := (((c.httpClient.R.SetHeader "X-XSRF-TOKEN" c.getXsrfToken).SetFile "file" path).SetFormData
      [("parent_id", parentId)]).Post "/secure/uploads"
  match fs path with
  | .error err => ⟨[], .error err⟩
  | .ok _ =>
    match t req with
    | .error err => ⟨[req], .error err⟩
    | .ok _ => ⟨[req], .ok ()⟩

/-! ## Vocabulary of the statements -/

/-- The request for one page: a `GET` of `/secure/drive/entries` with the four
query parameters. -/
def entriesRequest (folderId : String) (page : Int) : Request :=
  { Method := "GET", URL := "/secure/drive/entries", Header := [],
    QueryParam := [("orderBy", "updated_at"), ("orderDir", "desc"),
      ("page", toString page), ("folderId", folderId)],
    FormData := [], Files := [], Body := [] }

/-- The call `GetEntriesPage("root", page, nil, nil)`. -/
def rootCall (page : Int) : PageCall := ⟨"root", page, none, none⟩

/-- The largest Go `int`. -/
def maxInt : Int := 2 ^ 63 - 1

/-! ## Sample services -/

/-- An entry with the given id and name; the other fields are zero values. -/
def sampleEntry (id : Int) (name : String) : EntryDetails :=
  { ID := id, Name := name, FileName := "", Mime := "", FileSize := 0, ParentID := 0,
    CreatedAt := "", UpdatedAt := "", DeletedAt := "", Path := "", PublicPath := "",
    Type_ := "file", Extension := "", Public := 0, Thumbnail := false, Hash := "", URL := "",
    Users := [], Tags := [] }

/-- Page `i` of a three-page listing of 30 entries, ten counted per page, one
shown; every page, the last one included, carries a next-page URL. -/
def samplePage (i : Nat) : GetEntriesResponsePayload :=
  { CurrentPage := i, Data := [sampleEntry i "entry"], From := 10 * (i - 1 : Nat) + 1, LastPage := 3,
    NextPageURL := some "https://app.thunderdrive.io/secure/drive/entries?page=next",
    Path := "https://app.thunderdrive.io/secure/drive/entries", PerPage := 10,
    PrevPageURL := none, To := 10 * i, Total := 30 }

/-- A listing service with the three pages of `samplePage`. -/
def sampleService : Transport GetEntriesResponsePayload := fun r =>
  if r = entriesRequest "root" 1 then .ok (samplePage 1)
  else if r = entriesRequest "root" 2 then .ok (samplePage 2)
  else if r = entriesRequest "root" 3 then .ok (samplePage 3)
  else .error "404"

/-- A listing service whose every page announces a next page and has
`to = 0`, `total = 1`. -/
def endlessService : Transport GetEntriesResponsePayload := fun _ =>
  .ok { CurrentPage := 1, Data := [], From := 0, LastPage := 2,
        NextPageURL := some "https://app.thunderdrive.io/secure/drive/entries?page=2",
        Path := "", PerPage := 10, PrevPageURL := none, To := 0, Total := 1 }

/-- The client `c` at a moment when its jar holds `jar`. -/
def Client.withJar (c : Client) (jar : CookieJar) : Client :=
  { c with httpClient := { c.httpClient with Jar := jar } }

/-- A jar that holds `cookies` for `BaseUrl` and nothing for other URLs. -/
def jarOf (cookies : List Cookie) : CookieJar :=
  ⟨fun u => if u = BaseUrl then cookies else []⟩

/-- The values of the `X-XSRF-TOKEN` header of the requests of a run. -/
def xsrfHeaders {α : Type} (run : Run α) : List (Option String) :=
  run.sent.map (fun r => getKey "X-XSRF-TOKEN" r.Header)

/-- The request of `Login`. -/
def loginRequest (email password : String) : Request :=
  { Method := "POST", URL := "/secure/auth/login", Header := [], QueryParam := [],
    FormData := [], Files := [],
    Body := [("remember", .bool true), ("email", .str email), ("password", .str password)] }

/-- A service that accepts every mutating request. -/
def acceptAll : Transport Unit := fun _ => .ok ()

/-- Local files: `f.txt` can be opened, no other file exists. -/
def sampleFiles : FileSystem := fun path =>
  if path = "f.txt" then .ok () else .error "open: no such file or directory"

/-- The `data` field of the login example: base64 of the JSON document with user id 42. -/
def sampleLoginData : String := "eyJ1c2VyIjp7ImlkIjo0Mn19"

/-- The JSON document of the login example. -/
def sampleLoginJSON : String := "\x7b\"user\":\x7b\"id\":42\x7d\x7d"

/-- A codec that knows the one document of the login example: it decodes
`sampleLoginData` to `sampleLoginJSON` and that to user id 42, and leaves the
target untouched on any other input. -/
def sampleCodec : Codec :=
  { base64Decode := fun s => if s = sampleLoginData then sampleLoginJSON else ""
    jsonUnmarshal := fun b v => if b = sampleLoginJSON then ⟨⟨42⟩⟩ else v }

/-- A login service that answers `"success"` with `sampleLoginData`. -/
def loginSuccess : Transport LoginResponsePayload := fun _ =>
  .ok { Data := sampleLoginData, Status := "success" }

/-- A login service that answers `"failure"`. -/
def loginFailure : Transport LoginResponsePayload := fun _ =>
  .ok { Data := sampleLoginData, Status := "failure" }

/-- A folder service that answers `"success"` with no folders. -/
def noFolders : Transport FoldersResponsePayload := fun _ =>
  .ok { Folders := [], Status := "success" }

/-! ## The pagination loop: auxiliary facts -/

/-- Below the largest `int`, `page++` is the successor. -/
theorem wrapInt_succ (p : Nat) (h : (p : Int) + 1 ≤ maxInt) :
    wrapInt ((p : Int) + 1) = ((p + 1 : Nat) : Int) := by
  unfold wrapInt maxInt at *
  push_cast
  omega

/-- One call of `GetEntriesPage` sends one request, `entriesRequest`. -/
theorem GetEntriesPage_sent (c : Client) (t : Transport GetEntriesResponsePayload)
    (folderId : String) (page : Int) (a b : Option String) :
    (c.GetEntriesPage t folderId page a b).sent = [entriesRequest folderId page] := by
  unfold Client.GetEntriesPage
  cases h : t ((c.httpClient.R.SetQueryParams [("orderBy", "updated_at"), ("orderDir", "desc"), ("page", toString page), ("folderId", folderId)]).Get "/secure/drive/entries") <;> simp [h] <;> rfl

/-- The outcome of `GetEntriesPage` is the answer of the service to `entriesRequest`. -/
theorem GetEntriesPage_outcome (c : Client) (t : Transport GetEntriesResponsePayload)
    (folderId : String) (page : Int) (a b : Option String) :
    (c.GetEntriesPage t folderId page a b).outcome = t (entriesRequest folderId page) := by
  have : ((c.httpClient.R.SetQueryParams [("orderBy", "updated_at"), ("orderDir", "desc"), ("page", toString page), ("folderId", folderId)]).Get "/secure/drive/entries") = entriesRequest folderId page := rfl
  unfold Client.GetEntriesPage
  simp only [this]
  cases h : t (entriesRequest folderId page) <;> rfl

/-- An iteration whose request fails ends the run with `log.Fatal`. -/
theorem loop_error (c : Client) (t : Transport GetEntriesResponsePayload) (fuel : Nat)
    (page : Int) (acc : List EntryDetails) (err : TransportError)
    (h : t (entriesRequest "root" page) = .error err) :
    GetEntries.loop c t (fuel + 1) page acc =
      ⟨[rootCall page], [entriesRequest "root" page], some (.error err)⟩ := by
  have ho := GetEntriesPage_outcome c t "root" page none none
  have hs := GetEntriesPage_sent c t "root" page none none
  rw [h] at ho
  simp only [GetEntries.loop, ho, hs, rootCall]

/-- An iteration whose page has no next-page URL or has `to = total` is the last. -/
theorem loop_stop (c : Client) (t : Transport GetEntriesResponsePayload) (fuel : Nat)
    (page : Int) (acc : List EntryDetails) (r : GetEntriesResponsePayload)
    (h : t (entriesRequest "root" page) = .ok r)
    (hstop : r.NextPageURL = none ∨ r.To = r.Total) :
    GetEntries.loop c t (fuel + 1) page acc =
      ⟨[rootCall page], [entriesRequest "root" page], some (.ok (acc ++ r.Data))⟩ := by
  have ho := GetEntriesPage_outcome c t "root" page none none
  have hs := GetEntriesPage_sent c t "root" page none none
  rw [h] at ho
  have hb : (r.NextPageURL != none && r.To != r.Total) = false := by
    rcases hstop with h1 | h1 <;> simp [h1]
  simp only [GetEntries.loop, ho, hs, rootCall, hb]
  simp

/-- An iteration whose page has a next-page URL and `to ≠ total` is followed by the
iteration for the next page. -/
theorem loop_continue (c : Client) (t : Transport GetEntriesResponsePayload) (fuel : Nat)
    (page : Int) (acc : List EntryDetails) (r : GetEntriesResponsePayload)
    (h : t (entriesRequest "root" page) = .ok r)
    (hcont : r.NextPageURL ≠ none ∧ r.To ≠ r.Total) :
    GetEntries.loop c t (fuel + 1) page acc =
      ⟨rootCall page :: (GetEntries.loop c t fuel (wrapInt (page + 1)) (acc ++ r.Data)).calls,
       entriesRequest "root" page :: (GetEntries.loop c t fuel (wrapInt (page + 1)) (acc ++ r.Data)).sent,
       (GetEntries.loop c t fuel (wrapInt (page + 1)) (acc ++ r.Data)).outcome⟩ := by
  have ho := GetEntriesPage_outcome c t "root" page none none
  have hs := GetEntriesPage_sent c t "root" page none none
  rw [h] at ho
  have hb : (r.NextPageURL != none && r.To != r.Total) = true := by
    simp [hcont.1, hcont.2]
  simp only [GetEntries.loop, ho, hs, rootCall, hb]
  simp

/-- The loop entered at page `p`, when page `p + n` is the first to stop it. -/
theorem loop_pages (c : Client) (t : Transport GetEntriesResponsePayload)
    (serve : Nat → GetEntriesResponsePayload) :
    ∀ (n p : Nat) (acc : List EntryDetails) (fuel : Nat),
      ((p + n : Nat) : Int) ≤ maxInt →
      (∀ i, p ≤ i → i ≤ p + n → t (entriesRequest "root" i) = .ok (serve i)) →
      (∀ i, p ≤ i → i < p + n →
        (serve i).NextPageURL ≠ none ∧ (serve i).To ≠ (serve i).Total) →
      ((serve (p + n)).NextPageURL = none ∨ (serve (p + n)).To = (serve (p + n)).Total) →
      n + 1 ≤ fuel →
      GetEntries.loop c t fuel p acc =
        ⟨(List.range' p (n + 1)).map (fun i : Nat => rootCall (i : Int)),
         (List.range' p (n + 1)).map (fun i : Nat => entriesRequest "root" (i : Int)),
         some (.ok (acc ++ (List.range' p (n + 1)).flatMap (fun i => (serve i).Data)))⟩ := by
  intro n
  induction n with
  | zero =>
    intro p acc fuel _ hserve _ hstop hfuel
    obtain ⟨f, rfl⟩ : ∃ f, fuel = f + 1 := ⟨fuel - 1, by omega⟩
    rw [loop_stop c t f p acc (serve p) (hserve p (le_refl _) (by omega)) (by simpa using hstop)]
    simp
  | succ n ih =>
    intro p acc fuel hmax hserve hcont hstop hfuel
    obtain ⟨f, rfl⟩ : ∃ f, fuel = f + 1 := ⟨fuel - 1, by omega⟩
    have hw : wrapInt ((p : Int) + 1) = ((p + 1 : Nat) : Int) :=
      wrapInt_succ p (by unfold maxInt at *; push_cast at hmax ⊢; omega)
    rw [loop_continue c t f p acc (serve p) (hserve p (le_refl _) (by omega))
      (hcont p (le_refl _) (by omega)), hw]
    have hidx : p + 1 + n = p + (n + 1) := by omega
    rw [ih (p + 1) (acc ++ (serve p).Data) f (by rw [hidx]; exact hmax)
      (fun i h1 h2 => hserve i (by omega) (by omega))
      (fun i h1 h2 => hcont i (by omega) (by omega))
      (by rw [hidx]; exact hstop) (by omega)]
    simp [List.range'_succ p (n + 1), List.append_assoc]

/-- The three ways one iteration can go. -/
theorem loop_cases (c : Client) (t : Transport GetEntriesResponsePayload) (fuel : Nat)
    (page : Int) (acc : List EntryDetails) :
    (∃ err, t (entriesRequest "root" page) = .error err ∧
      GetEntries.loop c t (fuel + 1) page acc =
        ⟨[rootCall page], [entriesRequest "root" page], some (.error err)⟩) ∨
    (∃ r, t (entriesRequest "root" page) = .ok r ∧
      (r.NextPageURL = none ∨ r.To = r.Total) ∧
      GetEntries.loop c t (fuel + 1) page acc =
        ⟨[rootCall page], [entriesRequest "root" page], some (.ok (acc ++ r.Data))⟩) ∨
    (∃ r, t (entriesRequest "root" page) = .ok r ∧
      (r.NextPageURL ≠ none ∧ r.To ≠ r.Total) ∧
      GetEntries.loop c t (fuel + 1) page acc =
        ⟨rootCall page :: (GetEntries.loop c t fuel (wrapInt (page + 1)) (acc ++ r.Data)).calls,
         entriesRequest "root" page ::
           (GetEntries.loop c t fuel (wrapInt (page + 1)) (acc ++ r.Data)).sent,
         (GetEntries.loop c t fuel (wrapInt (page + 1)) (acc ++ r.Data)).outcome⟩) := by
  cases h : t (entriesRequest "root" page) with
  | error err => exact Or.inl ⟨err, rfl, loop_error c t fuel page acc err h⟩
  | ok r =>
    by_cases hc : r.NextPageURL ≠ none ∧ r.To ≠ r.Total
    · exact Or.inr (Or.inr ⟨r, rfl, hc, loop_continue c t fuel page acc r h hc⟩)
    · have hs : r.NextPageURL = none ∨ r.To = r.Total := by
        by_cases h1 : r.NextPageURL = none
        · exact Or.inl h1
        · right
          by_contra h2
          exact hc ⟨h1, h2⟩
      exact Or.inr (Or.inl ⟨r, rfl, hs, loop_stop c t fuel page acc r h hs⟩)

/-- Every call of `GetEntriesPage` sends exactly its one request. -/
theorem loop_sent_eq (c : Client) (t : Transport GetEntriesResponsePayload) :
    ∀ (fuel : Nat) (page : Int) (acc : List EntryDetails),
      (GetEntries.loop c t fuel page acc).sent =
        (GetEntries.loop c t fuel page acc).calls.map
          (fun call => entriesRequest call.folderId call.page) := by
  intro fuel
  induction fuel with
  | zero => intro page acc; simp [GetEntries.loop]
  | succ f ih =>
    intro page acc
    rcases loop_cases c t f page acc with ⟨e, _, h⟩ | ⟨r, _, _, h⟩ | ⟨r, _, _, h⟩
    · rw [h]; simp [rootCall]
    · rw [h]; simp [rootCall]
    · rw [h]; simp [rootCall, ih]

/-- Every call made by the loop is `GetEntriesPage("root", page, nil, nil)`. -/
theorem loop_calls_root (c : Client) (t : Transport GetEntriesResponsePayload) :
    ∀ (fuel : Nat) (page : Int) (acc : List EntryDetails),
      ∀ call ∈ (GetEntries.loop c t fuel page acc).calls, ∃ p, call = rootCall p := by
  intro fuel
  induction fuel with
  | zero => intro page acc call h; simp [GetEntries.loop] at h
  | succ f ih =>
    intro page acc call hmem
    rcases loop_cases c t f page acc with ⟨e, _, h⟩ | ⟨r, _, _, h⟩ | ⟨r, _, _, h⟩
    · rw [h] at hmem; simp at hmem; exact ⟨page, hmem⟩
    · rw [h] at hmem; simp at hmem; exact ⟨page, hmem⟩
    · rw [h] at hmem
      simp only [List.mem_cons] at hmem
      rcases hmem with hm | hm
      · exact ⟨page, hm⟩
      · exact ih _ _ call hm

/-- The call at position `i` of a loop entered at page `p` is for page `p + i`. -/
theorem loop_call_at (c : Client) (t : Transport GetEntriesResponsePayload) :
    ∀ (fuel p : Nat) (acc : List EntryDetails) (i : Nat),
      ((p + i : Nat) : Int) ≤ maxInt →
      i < (GetEntries.loop c t fuel p acc).calls.length →
      (GetEntries.loop c t fuel p acc).calls[i]? = some (rootCall ((p + i : Nat) : Int)) := by
  intro fuel
  induction fuel with
  | zero => intro p acc i _ h; simp [GetEntries.loop] at h
  | succ f ih =>
    intro p acc i hmax hlt
    rcases loop_cases c t f p acc with ⟨e, _, h⟩ | ⟨r, _, _, h⟩ | ⟨r, _, _, h⟩
    · rw [h] at hlt ⊢
      simp at hlt
      subst hlt
      simp
    · rw [h] at hlt ⊢
      simp at hlt
      subst hlt
      simp
    · rw [h] at hlt ⊢
      cases i with
      | zero => simp
      | succ j =>
        have hw : wrapInt ((p : Int) + 1) = ((p + 1 : Nat) : Int) :=
          wrapInt_succ p (by unfold maxInt at *; push_cast at hmax ⊢; omega)
        rw [hw] at hlt ⊢
        simp only [List.length_cons, Nat.add_lt_add_iff_right] at hlt
        simp only [List.getElem?_cons_succ]
        have hidx : p + 1 + j = p + (j + 1) := by omega
        rw [ih (p + 1) (acc ++ r.Data) j (by rw [hidx]; exact hmax) hlt, hidx]

/-- On a service whose every page continues, the loop uses up any budget. -/
theorem loop_endless (c : Client) (t : Transport GetEntriesResponsePayload)
    (hall : ∀ page : Int, ∃ r, t (entriesRequest "root" page) = .ok r ∧
      r.NextPageURL ≠ none ∧ r.To ≠ r.Total) :
    ∀ (fuel : Nat) (page : Int) (acc : List EntryDetails),
      (GetEntries.loop c t fuel page acc).outcome = none ∧
      (GetEntries.loop c t fuel page acc).calls.length = fuel := by
  intro fuel
  induction fuel with
  | zero => intro page acc; simp [GetEntries.loop]
  | succ f ih =>
    intro page acc
    obtain ⟨r, hr, hc⟩ := hall page
    rw [loop_continue c t f page acc r hr hc]
    simp [ih]

/-- A loop with budget makes at least one call. -/
theorem loop_calls_pos (c : Client) (t : Transport GetEntriesResponsePayload) (fuel : Nat)
    (page : Int) (acc : List EntryDetails) :
    0 < (GetEntries.loop c t (fuel + 1) page acc).calls.length := by
  rcases loop_cases c t fuel page acc with ⟨e, _, h⟩ | ⟨r, _, _, h⟩ | ⟨r, _, _, h⟩ <;>
    rw [h] <;> simp

/-- Whether the call at position `j + 1` exists is decided by the response at position `j`. -/
theorem loop_next (c : Client) (t : Transport GetEntriesResponsePayload) :
    ∀ (fuel p : Nat) (acc : List EntryDetails) (j : Nat) (resp : GetEntriesResponsePayload),
      ((p + j + 1 : Nat) : Int) ≤ maxInt →
      j + 1 < fuel →
      j < (GetEntries.loop c t fuel p acc).calls.length →
      t (entriesRequest "root" ((p + j : Nat) : Int)) = .ok resp →
      ((resp.NextPageURL ≠ none ∧ resp.To ≠ resp.Total) →
        (GetEntries.loop c t fuel p acc).calls[j + 1]? =
          some (rootCall ((p + j + 1 : Nat) : Int))) ∧
      ((resp.NextPageURL = none ∨ resp.To = resp.Total) →
        (GetEntries.loop c t fuel p acc).calls.length = j + 1 ∧
        ∃ result, (GetEntries.loop c t fuel p acc).outcome = some (.ok result)) := by
  intro fuel
  induction fuel with
  | zero => intro p acc j resp _ h; omega
  | succ f ih =>
    intro p acc j resp hmax hfuel hlt hresp
    have hw : wrapInt ((p : Int) + 1) = ((p + 1 : Nat) : Int) :=
      wrapInt_succ p (by unfold maxInt at *; push_cast at hmax ⊢; omega)
    cases j with
    | zero =>
      simp only [Nat.add_zero] at hresp
      rcases loop_cases c t f p acc with ⟨e, he, h⟩ | ⟨r, hr, hs, h⟩ | ⟨r, hr, hc, h⟩
      · rw [hresp] at he; cases he
      · rw [hresp] at hr
        cases hr
        refine ⟨fun hc => ?_, fun _ => ?_⟩
        · rcases hs with h1 | h1
          · exact absurd h1 hc.1
          · exact absurd h1 hc.2
        · rw [h]; exact ⟨rfl, _, rfl⟩
      · rw [hresp] at hr
        cases hr
        refine ⟨fun _ => ?_, fun hs => ?_⟩
        · rw [h, hw]
          obtain ⟨g, rfl⟩ : ∃ g, f = g + 1 := ⟨f - 1, by omega⟩
          simp only [List.getElem?_cons_succ, Nat.zero_add]
          have := loop_call_at c t (g + 1) (p + 1) (acc ++ resp.Data) 0
            (by simpa using hmax) (loop_calls_pos c t g _ _)
          simpa using this
        · rcases hs with h1 | h1
          · exact absurd h1 hc.1
          · exact absurd h1 hc.2
    | succ i =>
      rcases loop_cases c t f p acc with ⟨e, _, h⟩ | ⟨r, _, _, h⟩ | ⟨r, hr, hc, h⟩
      · rw [h] at hlt; simp at hlt
      · rw [h] at hlt; simp at hlt
      · rw [h, hw] at hlt
        simp only [List.length_cons, Nat.add_lt_add_iff_right] at hlt
        have hidx : p + 1 + i = p + (i + 1) := by omega
        have hidx2 : p + 1 + i + 1 = p + (i + 1) + 1 := by omega
        have := ih (p + 1) (acc ++ r.Data) i resp (by rw [hidx2]; exact hmax) (by omega) hlt
          (by rw [hidx]; exact hresp)
        rw [h, hw]
        simp only [List.getElem?_cons_succ, List.length_cons, Nat.add_right_cancel_iff]
        rw [hidx2] at this
        exact this

/-! ## Pagination: the claims -/

/-- C1. If page `k ≥ 1` is the first page whose envelope has no next-page URL or
has `to = total`, then `GetEntries`, given at least `k` loop iterations,
returns the items of pages `1, …, k` concatenated in that order, after exactly
`k` calls of `GetEntriesPage`, for the pages `1, …, k`, each sending one request. -/
theorem GetEntries_returns_concatenation (c : Client)
    (t : Transport GetEntriesResponsePayload) (serve : Nat → GetEntriesResponsePayload)
    (k fuel : Nat) (path : String)
    (hk : 1 ≤ k) (hmax : (k : Int) ≤ maxInt)
    (hserve : ∀ i, 1 ≤ i → i ≤ k → t (entriesRequest "root" i) = .ok (serve i))
    (hfirst : ∀ i, 1 ≤ i → i < k →
      (serve i).NextPageURL ≠ none ∧ (serve i).To ≠ (serve i).Total)
    (hstop : (serve k).NextPageURL = none ∨ (serve k).To = (serve k).Total)
    (hfuel : k ≤ fuel) :
    (c.GetEntries t fuel path).outcome =
        some (.ok ((List.range' 1 k).flatMap (fun i => (serve i).Data))) ∧
      (c.GetEntries t fuel path).calls = (List.range' 1 k).map (fun i : Nat => rootCall (i : Int)) ∧
      (c.GetEntries t fuel path).sent =
        (List.range' 1 k).map (fun i : Nat => entriesRequest "root" (i : Int)) ∧
      (c.GetEntries t fuel path).sent.length = k := by
  obtain ⟨n, rfl⟩ : ∃ n, k = n + 1 := ⟨k - 1, by omega⟩
  have hidx : 1 + n = n + 1 := by omega
  have h := loop_pages c t serve n 1 [] fuel (by rw [hidx]; exact hmax)
    (fun i h1 h2 => hserve i h1 (by omega)) (fun i h1 h2 => hfirst i h1 (by omega))
    (by rw [hidx]; exact hstop) hfuel
  have hone : ((1 : Nat) : Int) = 1 := rfl
  rw [hone] at h
  unfold Client.GetEntries
  rw [h]
  simp

/-- C1, on the three-page sample service. -/
theorem GetEntries_returns_concatenation_witness :
    (New.GetEntries sampleService 5 "/").outcome =
        some (.ok [sampleEntry 1 "entry", sampleEntry 2 "entry", sampleEntry 3 "entry"]) ∧
      (New.GetEntries sampleService 5 "/").calls = [rootCall 1, rootCall 2, rootCall 3] ∧
      (New.GetEntries sampleService 5 "/").sent =
        [entriesRequest "root" 1, entriesRequest "root" 2, entriesRequest "root" 3] ∧
      (New.GetEntries sampleService 5 "/").sent.length = 3 := by
  have h := GetEntries_returns_concatenation New sampleService samplePage 3 5 "/"
    (by decide) (by decide)
    (by intro i h1 h2; interval_cases i <;> rfl)
    (by intro i h1 h2; interval_cases i <;> decide)
    (by right; decide) (by decide)
  simpa [List.range'_succ, samplePage] using h

/-- C2. Let page `n` be the `n`-th call of `GetEntriesPage` and `resp` its
response, with loop iterations left. The next call, for page `n + 1`, is made
if and only if `resp` has a next-page URL and `to ≠ total`. If either fails,
in particular if `to = total`, the loop stops there: `n` calls were made,
`GetEntries` returns, and no call is for page `n + 1`. -/
theorem GetEntries_next_page_iff (c : Client) (t : Transport GetEntriesResponsePayload)
    (fuel n : Nat) (path : String) (resp : GetEntriesResponsePayload)
    (hn : 1 ≤ n) (hmax : ((n + 1 : Nat) : Int) ≤ maxInt) (hfuel : n < fuel)
    (hreq : (c.GetEntries t fuel path).calls[n - 1]? = some (rootCall (n : Int)))
    (hresp : t (entriesRequest "root" (n : Int)) = .ok resp) :
    ((c.GetEntries t fuel path).calls[n]? = some (rootCall ((n + 1 : Nat) : Int)) ↔
        (resp.NextPageURL ≠ none ∧ resp.To ≠ resp.Total)) ∧
      ((resp.NextPageURL = none ∨ resp.To = resp.Total) →
        (c.GetEntries t fuel path).calls.length = n ∧
        (∃ result, (c.GetEntries t fuel path).outcome = some (.ok result)) ∧
        ∀ call ∈ (c.GetEntries t fuel path).calls, call.page ≠ ((n + 1 : Nat) : Int)) := by
  obtain ⟨j, rfl⟩ : ∃ j, n = j + 1 := ⟨n - 1, by omega⟩
  unfold Client.GetEntries at *
  simp only [Nat.add_sub_cancel] at hreq
  have hlt : j < (GetEntries.loop c t fuel 1 []).calls.length := by
    by_contra hge
    rw [List.getElem?_eq_none (by omega)] at hreq
    cases hreq
  have hidx : 1 + j = j + 1 := by omega
  have hone : ((1 : Nat) : Int) = 1 := rfl
  have key := loop_next c t fuel 1 [] j resp (by rw [hidx]; exact hmax) hfuel
    (by rw [hone]; exact hlt) (by rw [hidx]; exact hresp)
  rw [hone, hidx] at key
  obtain ⟨kc, ks⟩ := key
  have hstop : (resp.NextPageURL = none ∨ resp.To = resp.Total) →
      (GetEntries.loop c t fuel 1 []).calls.length = j + 1 ∧
      (∃ result, (GetEntries.loop c t fuel 1 []).outcome = some (.ok result)) ∧
      ∀ call ∈ (GetEntries.loop c t fuel 1 []).calls, call.page ≠ ((j + 1 + 1 : Nat) : Int) := by
    intro hs
    obtain ⟨hl, hr⟩ := ks hs
    refine ⟨hl, hr, ?_⟩
    intro call hmem
    obtain ⟨i, hi, hget⟩ := List.getElem_of_mem hmem
    have hat := loop_call_at c t fuel 1 [] i
      (by unfold maxInt at *; push_cast at hmax ⊢; omega) (by rw [hone]; exact hi)
    rw [hone, List.getElem?_eq_getElem hi, hget] at hat
    cases hat
    simp only [rootCall]
    push_cast
    omega
  refine ⟨⟨fun h => ?_, kc⟩, hstop⟩
  by_contra hc
  have hs : resp.NextPageURL = none ∨ resp.To = resp.Total := by
    by_cases h1 : resp.NextPageURL = none
    · exact Or.inl h1
    · right
      by_contra h2
      exact hc ⟨h1, h2⟩
  have hl := (hstop hs).1
  rw [List.getElem?_eq_none (by omega)] at h
  cases h

/-- C2, on the three-page sample service: page 3 has `to = 30 = total` and a
next-page URL; three calls are made and none is for page 4. -/
theorem GetEntries_next_page_iff_witness :
    (samplePage 3).To = 30 ∧ (samplePage 3).Total = 30 ∧ (samplePage 3).NextPageURL ≠ none ∧
      (New.GetEntries sampleService 10 "/").calls.length = 3 ∧
      (∃ result, (New.GetEntries sampleService 10 "/").outcome = some (.ok result)) ∧
      ∀ call ∈ (New.GetEntries sampleService 10 "/").calls, call.page ≠ 4 := by
  have h := GetEntries_next_page_iff New sampleService 10 3 "/" (samplePage 3)
    (by decide) (by decide) (by decide) (by rfl) (by rfl)
  exact ⟨by decide, by decide, by decide, h.2 (Or.inr (by decide))⟩

/-- C3, as written, fails: on `endlessService`, whose every page has a next-page
URL and `to ≠ total`, no number of loop iterations makes `GetEntries` return,
and no bound holds for the number of page requests. -/
theorem GetEntries_unbounded_counterexample :
    (¬ ∃ fuel : Nat, (New.GetEntries endlessService fuel "/").outcome ≠ none) ∧
      (¬ ∃ bound : Nat, ∀ fuel : Nat,
        (New.GetEntries endlessService fuel "/").sent.length ≤ bound) := by
  have hall : ∀ page : Int, ∃ r, endlessService (entriesRequest "root" page) = .ok r ∧
      r.NextPageURL ≠ none ∧ r.To ≠ r.Total :=
    fun _ => ⟨_, rfl, by decide, by decide⟩
  have key := fun fuel => loop_endless New endlessService hall fuel 1 []
  constructor
  · rintro ⟨fuel, h⟩
    exact h (key fuel).1
  · rintro ⟨bound, h⟩
    have hb := h (bound + 1)
    unfold Client.GetEntries at hb
    rw [loop_sent_eq, List.length_map, (key (bound + 1)).2] at hb
    omega

/-- C3, amended. Against a listing service whose every page has a next-page URL
and `to ≠ total`, `GetEntries` has no bound of its own: whatever the number
`fuel` of loop iterations it is given, it has not returned after them and has
sent exactly `fuel` page requests. -/
theorem GetEntries_never_stops (c : Client) (t : Transport GetEntriesResponsePayload)
    (path : String)
    (hall : ∀ page : Int, ∃ r, t (entriesRequest "root" page) = .ok r ∧
      r.NextPageURL ≠ none ∧ r.To ≠ r.Total) (fuel : Nat) :
    (c.GetEntries t fuel path).outcome = none ∧
      (c.GetEntries t fuel path).calls.length = fuel ∧
      (c.GetEntries t fuel path).sent.length = fuel := by
  have key := loop_endless c t hall fuel 1 []
  unfold Client.GetEntries
  refine ⟨key.1, key.2, ?_⟩
  rw [loop_sent_eq, List.length_map, key.2]

/-- C3 amended, on `endlessService` after 1000 iterations. -/
theorem GetEntries_never_stops_witness :
    (∀ page : Int, ∃ r, endlessService (entriesRequest "root" page) = .ok r ∧
      r.NextPageURL ≠ none ∧ r.To ≠ r.Total) ∧
      (New.GetEntries endlessService 1000 "/").outcome = none ∧
      (New.GetEntries endlessService 1000 "/").calls.length = 1000 ∧
      (New.GetEntries endlessService 1000 "/").sent.length = 1000 :=
  ⟨fun _ => ⟨_, rfl, by decide, by decide⟩,
    GetEntries_never_stops New endlessService "/"
      (fun _ => ⟨_, rfl, by decide, by decide⟩) 1000⟩

/-- C10. `GetEntries` does not read its `path` argument: two paths give the
same calls, the same requests and the same outcome; every call of
`GetEntriesPage` it makes has folder id `"root"` and `nil` for `orderBy` and
`orderDir`, and every request it sends has `folderId=root`. -/
theorem GetEntries_ignores_path (c : Client) (t : Transport GetEntriesResponsePayload)
    (fuel : Nat) (p q : String) :
    c.GetEntries t fuel p = c.GetEntries t fuel q ∧
      (∀ call ∈ (c.GetEntries t fuel p).calls,
        call.folderId = "root" ∧ call.orderBy = none ∧ call.orderDir = none) ∧
      (∀ r ∈ (c.GetEntries t fuel p).sent, getKey "folderId" r.QueryParam = some "root") := by
  refine ⟨rfl, ?_, ?_⟩
  · intro call hmem
    obtain ⟨page, rfl⟩ := loop_calls_root c t fuel 1 [] call hmem
    exact ⟨rfl, rfl, rfl⟩
  · intro r hmem
    unfold Client.GetEntries at hmem
    rw [loop_sent_eq, List.mem_map] at hmem
    obtain ⟨call, hcall, rfl⟩ := hmem
    obtain ⟨page, rfl⟩ := loop_calls_root c t fuel 1 [] call hcall
    rfl

/-- C10, on the sample service with the paths `/a` and `/b`. -/
theorem GetEntries_ignores_path_witness :
    New.GetEntries sampleService 5 "/a" = New.GetEntries sampleService 5 "/b" ∧
      (New.GetEntries sampleService 5 "/a").calls.map (fun call => call.folderId) =
        ["root", "root", "root"] :=
  ⟨(GetEntries_ignores_path New sampleService 5 "/a" "/b").1, by rfl⟩

/-! ## The CSRF token -/

/-- The scan of `getXsrfToken` finds the first cookie named `XSRF-TOKEN`. -/
theorem scan_eq_find (cookies : List Cookie) :
    getXsrfToken.scan cookies =
      match cookies.find? (fun ck => decide (ck.Name = "XSRF-TOKEN")) with
      | some ck => (QueryUnescape ck.Value).1
      | none => "" := by
  induction cookies with
  | nil => rfl
  | cons ck rest ih =>
    by_cases h : ck.Name = "XSRF-TOKEN"
    · simp [getXsrfToken.scan, List.find?, h]
    · simp [getXsrfToken.scan, List.find?, h, ih]

/-- C5. `getXsrfToken` returns the query-unescaped value of the first cookie
named `XSRF-TOKEN` that the jar holds for `BaseUrl`, and the empty string when
the jar holds none; for the cookie value `%2Fabc%3D` it returns `/abc=`. -/
theorem getXsrfToken_unescapes_cookie (c : Client) (others : List Cookie) :
    (c.getXsrfToken =
        match (c.httpClient.Jar.Cookies BaseUrl).find? (fun ck => decide (ck.Name = "XSRF-TOKEN")) with
        | some ck => (QueryUnescape ck.Value).1
        | none => "") ∧
      ((c.httpClient.Jar.Cookies BaseUrl).all (fun ck => decide (ck.Name ≠ "XSRF-TOKEN")) = true →
        c.getXsrfToken = "") ∧
      QueryUnescape "%2Fabc%3D" = ("/abc=", none) ∧
      (c.withJar (jarOf (⟨"XSRF-TOKEN", "%2Fabc%3D"⟩ :: others))).getXsrfToken = "/abc=" := by
  refine ⟨scan_eq_find _, ?_, by decide, by rfl⟩
  intro h
  unfold Client.getXsrfToken
  generalize c.httpClient.Jar.Cookies BaseUrl = cookies at h
  induction cookies with
  | nil => rfl
  | cons ck rest ih =>
    simp only [List.all_cons, Bool.and_eq_true, decide_eq_true_eq] at h
    simp [getXsrfToken.scan, h.1]
    exact ih h.2

/-- C5, on a jar with a session cookie and no token, and on a jar with a token. -/
theorem getXsrfToken_unescapes_cookie_witness :
    (New.withJar (jarOf [⟨"session", "s3"⟩])).getXsrfToken = "" ∧
      (New.withJar (jarOf [⟨"XSRF-TOKEN", "%2Fabc%3D"⟩, ⟨"session", "s3"⟩])).getXsrfToken = "/abc=" :=
  ⟨(getXsrfToken_unescapes_cookie (New.withJar (jarOf [⟨"session", "s3"⟩])) []).2.1 (by decide),
    (getXsrfToken_unescapes_cookie New [⟨"session", "s3"⟩]).2.2.2⟩

/-! ## The mutating requests -/

/-- The request of `Remove`. -/
theorem Remove_sent (c : Client) (t : Transport Unit) (entryIds : List String) :
    (c.Remove t entryIds).sent =
      [{ Method := "POST", URL := "/secure/drive/entries",
         Header := [("X-XSRF-TOKEN", c.getXsrfToken)], QueryParam := [], FormData := [],
         Files := [], Body := [("_method", .str "DELETE"), ("entryIds", .strs entryIds)] }] := by
  unfold Client.Remove
  dsimp only
  split <;> rfl

/-- The request of `Mkdir`. -/
theorem Mkdir_sent (c : Client) (t : Transport Unit) (parentId : Option String)
    (name : String) :
    (c.Mkdir t parentId name).sent =
      [{ Method := "POST", URL := "/secure/drive/folders",
         Header := [("X-XSRF-TOKEN", c.getXsrfToken)], QueryParam := [], FormData := [],
         Files := [], Body := [("name", .str name), ("parent_id", .optStr parentId)] }] := by
  unfold Client.Mkdir
  dsimp only
  split <;> rfl

/-- The request of `Upload`, when the local file can be opened. -/
theorem Upload_sent (c : Client) (fs : FileSystem) (t : Transport Unit)
    (parentId path : String) (hfile : fs path = .ok ()) :
    (c.Upload fs t parentId path).sent =
      [{ Method := "POST", URL := "/secure/uploads",
         Header := [("X-XSRF-TOKEN", c.getXsrfToken)], QueryParam := [],
         FormData := [("parent_id", parentId)], Files := [("file", path)], Body := [] }] := by
  unfold Client.Upload
  simp only [hfile]
  split <;> rfl

/-- When the local file cannot be opened, `Upload` sends nothing and ends in `log.Fatal`. -/
theorem Upload_missing_file (c : Client) (fs : FileSystem) (t : Transport Unit)
    (parentId path : String) (err : TransportError) (hfile : fs path = .error err) :
    (c.Upload fs t parentId path).sent = [] ∧
      (c.Upload fs t parentId path).outcome = .error err := by
  unfold Client.Upload
  simp [hfile]

/-- C6. For every list of entry ids and every state of the cookie jar, `Remove`
sends one request: a `POST` to `/secure/drive/entries` whose body has
`_method = "DELETE"` and `entryIds` equal to the given list, in its order, and
whose `X-XSRF-TOKEN` header is `getXsrfToken` of the jar at the call; for the
ids `["1", "2"]` the body carries `["1", "2"]`. -/
theorem Remove_sends_delete (c : Client) (jar : CookieJar) (t : Transport Unit)
    (entryIds : List String) :
    (∃ r, ((c.withJar jar).Remove t entryIds).sent = [r] ∧
        r.Method = "POST" ∧ r.URL = "/secure/drive/entries" ∧
        getKey "_method" r.Body = some (.str "DELETE") ∧
        getKey "entryIds" r.Body = some (.strs entryIds) ∧
        getKey "X-XSRF-TOKEN" r.Header = some (c.withJar jar).getXsrfToken) ∧
      (∃ r, ((c.withJar jar).Remove t ["1", "2"]).sent = [r] ∧
        getKey "_method" r.Body = some (.str "DELETE") ∧
        getKey "entryIds" r.Body = some (.strs ["1", "2"]) ∧
        getKey "X-XSRF-TOKEN" r.Header = some (c.withJar jar).getXsrfToken) :=
  ⟨⟨_, Remove_sent _ t entryIds, rfl, rfl, rfl, rfl, rfl⟩,
    ⟨_, Remove_sent _ t ["1", "2"], rfl, rfl, rfl⟩⟩

/-- C8, as written, fails. The cookie `XSRF-TOKEN` changes from `a` to `%61`
between two calls, and `Remove`, `Mkdir` and `Upload` (of the local file
`f.txt`, which can be opened) send the same header value `a` before and after
the change; and `Upload` of a file that cannot be opened sends no request, so
no header, before and after a change of the cookie from `tokenA` to `tokenB`. -/
theorem xsrf_header_counterexample :
    (jarOf [⟨"XSRF-TOKEN", "a"⟩]).Cookies BaseUrl ≠ (jarOf [⟨"XSRF-TOKEN", "%61"⟩]).Cookies BaseUrl ∧
      xsrfHeaders ((New.withJar (jarOf [⟨"XSRF-TOKEN", "a"⟩])).Remove acceptAll ["1"]) =
        xsrfHeaders ((New.withJar (jarOf [⟨"XSRF-TOKEN", "%61"⟩])).Remove acceptAll ["1"]) ∧
      xsrfHeaders ((New.withJar (jarOf [⟨"XSRF-TOKEN", "a"⟩])).Mkdir acceptAll none "d") =
        xsrfHeaders ((New.withJar (jarOf [⟨"XSRF-TOKEN", "%61"⟩])).Mkdir acceptAll none "d") ∧
      sampleFiles "f.txt" = .ok () ∧
      xsrfHeaders ((New.withJar (jarOf [⟨"XSRF-TOKEN", "a"⟩])).Upload sampleFiles acceptAll
          "7" "f.txt") =
        xsrfHeaders ((New.withJar (jarOf [⟨"XSRF-TOKEN", "%61"⟩])).Upload sampleFiles acceptAll
          "7" "f.txt") ∧
      xsrfHeaders ((New.withJar (jarOf [⟨"XSRF-TOKEN", "%61"⟩])).Remove acceptAll ["1"]) =
        [some "a"] ∧
      xsrfHeaders ((New.withJar (jarOf [⟨"XSRF-TOKEN", "%61"⟩])).Upload sampleFiles acceptAll
          "7" "f.txt") = [some "a"] ∧
      sampleFiles "gone.txt" = .error "open: no such file or directory" ∧
      (New.withJar (jarOf [⟨"XSRF-TOKEN", "tokenA"⟩])).getXsrfToken ≠
        (New.withJar (jarOf [⟨"XSRF-TOKEN", "tokenB"⟩])).getXsrfToken ∧
      xsrfHeaders ((New.withJar (jarOf [⟨"XSRF-TOKEN", "tokenA"⟩])).Upload sampleFiles acceptAll
          "7" "gone.txt") = [] ∧
      xsrfHeaders ((New.withJar (jarOf [⟨"XSRF-TOKEN", "tokenB"⟩])).Upload sampleFiles acceptAll
          "7" "gone.txt") = [] := by
  refine ⟨by decide, by decide, by decide, rfl, by decide, by decide, by decide,
    rfl, by decide, by decide, by decide⟩

/-- C8, amended. `Remove` and `Mkdir` each send one request whose `X-XSRF-TOKEN`
header is `getXsrfToken` of the jar at the call, whatever the jar held at
earlier calls, and so does `Upload` when the local file can be opened; when it
cannot, `Upload` sends no request and ends in `log.Fatal`. So two calls between
which the token that `getXsrfToken` derives from the jar changes send
different header values, for `Upload` when the file can be opened at both. -/
theorem xsrf_header_rederived (c : Client) (jar₁ jar₂ : CookieJar) (t₁ t₂ : Transport Unit)
    (fs₁ fs₂ : FileSystem) (entryIds : List String) (parentId : Option String)
    (name folder path : String)
    (hchange : (c.withJar jar₁).getXsrfToken ≠ (c.withJar jar₂).getXsrfToken) :
    (xsrfHeaders ((c.withJar jar₂).Remove t₂ entryIds) = [some (c.withJar jar₂).getXsrfToken] ∧
        xsrfHeaders ((c.withJar jar₂).Mkdir t₂ parentId name) =
          [some (c.withJar jar₂).getXsrfToken] ∧
        (fs₂ path = .ok () →
          xsrfHeaders ((c.withJar jar₂).Upload fs₂ t₂ folder path) =
            [some (c.withJar jar₂).getXsrfToken]) ∧
        (∀ err, fs₂ path = .error err →
          ((c.withJar jar₂).Upload fs₂ t₂ folder path).sent = [] ∧
          ((c.withJar jar₂).Upload fs₂ t₂ folder path).outcome = .error err)) ∧
      xsrfHeaders ((c.withJar jar₁).Remove t₁ entryIds) ≠
        xsrfHeaders ((c.withJar jar₂).Remove t₂ entryIds) ∧
      xsrfHeaders ((c.withJar jar₁).Mkdir t₁ parentId name) ≠
        xsrfHeaders ((c.withJar jar₂).Mkdir t₂ parentId name) ∧
      (fs₁ path = .ok () → fs₂ path = .ok () →
        xsrfHeaders ((c.withJar jar₁).Upload fs₁ t₁ folder path) ≠
          xsrfHeaders ((c.withJar jar₂).Upload fs₂ t₂ folder path)) := by
  have hR : ∀ (d : Client) (t : Transport Unit),
      xsrfHeaders (d.Remove t entryIds) = [some d.getXsrfToken] := by
    intro d t; unfold xsrfHeaders; rw [Remove_sent]; rfl
  have hM : ∀ (d : Client) (t : Transport Unit),
      xsrfHeaders (d.Mkdir t parentId name) = [some d.getXsrfToken] := by
    intro d t; unfold xsrfHeaders; rw [Mkdir_sent]; rfl
  have hU : ∀ (d : Client) (fs : FileSystem) (t : Transport Unit), fs path = .ok () →
      xsrfHeaders (d.Upload fs t folder path) = [some d.getXsrfToken] := by
    intro d fs t hfile; unfold xsrfHeaders; rw [Upload_sent d fs t folder path hfile]; rfl
  refine ⟨⟨hR _ _, hM _ _, hU _ _ _, ?_⟩, ?_, ?_, ?_⟩
  · intro err hfile
    exact Upload_missing_file _ fs₂ t₂ folder path err hfile
  · rw [hR, hR]; simpa using hchange
  · rw [hM, hM]; simpa using hchange
  · intro h₁ h₂
    rw [hU _ _ _ h₁, hU _ _ _ h₂]; simpa using hchange

/-- C8 amended, on a jar whose token rotates from `tokenA` to `tokenB`: the
headers of `Remove`, of `Mkdir` and of `Upload` of the local file `f.txt`
differ between the two calls, and the second `Upload` sends `tokenB`. -/
theorem xsrf_header_rederived_witness :
    xsrfHeaders ((New.withJar (jarOf [⟨"XSRF-TOKEN", "tokenA"⟩])).Remove acceptAll ["1"]) ≠
        xsrfHeaders ((New.withJar (jarOf [⟨"XSRF-TOKEN", "tokenB"⟩])).Remove acceptAll ["1"]) ∧
      xsrfHeaders ((New.withJar (jarOf [⟨"XSRF-TOKEN", "tokenA"⟩])).Mkdir acceptAll none "d") ≠
        xsrfHeaders ((New.withJar (jarOf [⟨"XSRF-TOKEN", "tokenB"⟩])).Mkdir acceptAll none "d") ∧
      xsrfHeaders ((New.withJar (jarOf [⟨"XSRF-TOKEN", "tokenA"⟩])).Upload sampleFiles acceptAll
          "7" "f.txt") ≠
        xsrfHeaders ((New.withJar (jarOf [⟨"XSRF-TOKEN", "tokenB"⟩])).Upload sampleFiles acceptAll
          "7" "f.txt") ∧
      xsrfHeaders ((New.withJar (jarOf [⟨"XSRF-TOKEN", "tokenB"⟩])).Upload sampleFiles acceptAll
          "7" "f.txt") = [some "tokenB"] := by
  have h := xsrf_header_rederived New (jarOf [⟨"XSRF-TOKEN", "tokenA"⟩])
    (jarOf [⟨"XSRF-TOKEN", "tokenB"⟩]) acceptAll acceptAll sampleFiles sampleFiles
    ["1"] none "d" "7" "f.txt" (by decide)
  exact ⟨h.2.1, h.2.2.1, h.2.2.2 rfl rfl, h.1.2.2.1 rfl⟩

/-! ## One page -/

/-- C7 fails on the code. `GetEntriesPage` sends one `GET` of
`/secure/drive/entries` with `page` the decimal page number and `folderId` the
given folder, but `orderBy` is `updated_at` and `orderDir` is `desc` whatever
is supplied: called with `orderBy = "name"` and `orderDir = "asc"`, it sends
`orderBy=updated_at` and `orderDir=desc`. -/
theorem GetEntriesPage_ignores_order (c : Client) (t : Transport GetEntriesResponsePayload)
    (folderId : String) (page : Int) (orderBy orderDir : Option String) :
    (∃ r, (c.GetEntriesPage t folderId page orderBy orderDir).sent = [r] ∧
        r.Method = "GET" ∧ r.URL = "/secure/drive/entries" ∧
        getKey "page" r.QueryParam = some (toString page) ∧
        getKey "folderId" r.QueryParam = some folderId ∧
        getKey "orderBy" r.QueryParam = some "updated_at" ∧
        getKey "orderDir" r.QueryParam = some "desc") ∧
      (∃ r, (New.GetEntriesPage sampleService "root" 1 (some "name") (some "asc")).sent = [r] ∧
        getKey "page" r.QueryParam = some "1" ∧
        getKey "orderBy" r.QueryParam = some "updated_at" ∧
        getKey "orderBy" r.QueryParam ≠ some "name" ∧
        getKey "orderDir" r.QueryParam = some "desc" ∧
        getKey "orderDir" r.QueryParam ≠ some "asc") :=
  ⟨⟨_, GetEntriesPage_sent c t folderId page orderBy orderDir, rfl, rfl, rfl, rfl, rfl, rfl⟩,
    ⟨_, GetEntriesPage_sent New sampleService "root" 1 (some "name") (some "asc"),
      by decide, by decide, by decide, by decide, by decide⟩⟩

/-! ## Login -/

/-- C4 fails on the code. `Login` leaves the user details of the client it is
called on as they were, whatever the service answers: on the answer `"success"`
with the base64 of the JSON document with user id 42, the decoded id 42 is in the
method's own copy of the client when `Login` ends, the caller's client still
has id 0, and `Folders` on it asks for `/secure/drive/users/0/folders`. -/
theorem Login_user_id_not_retained :
    (∀ (codec : Codec) (t : Transport LoginResponsePayload) (c : Client)
        (email password : String),
        (c.Login codec t email password).caller.userDetails = c.userDetails) ∧
      (New.Login sampleCodec loginSuccess "user@example.org" "secret").sent =
        [loginRequest "user@example.org" "secret"] ∧
      (New.Login sampleCodec loginSuccess "user@example.org" "secret").outcome = .ok () ∧
      (New.Login sampleCodec loginSuccess "user@example.org" "secret").receiver.userDetails.User.ID
        = 42 ∧
      (New.Login sampleCodec loginSuccess "user@example.org" "secret").caller.userDetails.User.ID
        = 0 ∧
      ((New.Login sampleCodec loginSuccess "user@example.org" "secret").caller.Folders
          noFolders).sent.map (fun r => r.URL) = ["/secure/drive/users/0/folders"] := by
  refine ⟨fun _ _ _ _ _ => rfl, by decide, by rfl, by decide, by decide, by decide⟩

/-- C9. When the login request gets a response whose status is not `"success"`,
`Login` returns normally after that one request, and the user details are what
they were before, in the caller's client and in the method's own copy: the
`data` field is not decoded, whatever the codec. -/
theorem Login_failure_leaves_identity (codec : Codec) (t : Transport LoginResponsePayload)
    (c : Client) (email password : String) (resp : LoginResponsePayload)
    (hresp : t (loginRequest email password) = .ok resp)
    (hstatus : resp.Status ≠ "success") :
    (c.Login codec t email password).sent = [loginRequest email password] ∧
      (c.Login codec t email password).outcome = .ok () ∧
      (c.Login codec t email password).caller.userDetails = c.userDetails ∧
      (c.Login codec t email password).receiver.userDetails = c.userDetails := by
  have hreq : (c.httpClient.R.SetBody
      (LoginRequestPayload.toBody { Remember := true, Email := email, Password := password })).Post
      "/secure/auth/login" = loginRequest email password := rfl
  unfold Client.Login Login.body
  simp [hreq, hresp, hstatus]

/-- C9, on a service that answers `"failure"`: the user id of a fresh client stays 0. -/
theorem Login_failure_leaves_identity_witness :
    (New.Login sampleCodec loginFailure "user@example.org" "secret").outcome = .ok () ∧
      (New.Login sampleCodec loginFailure "user@example.org" "secret").caller.userDetails.User.ID
        = 0 ∧
      (New.Login sampleCodec loginFailure "user@example.org" "secret").receiver.userDetails.User.ID
        = 0 := by
  have h := Login_failure_leaves_identity sampleCodec loginFailure New "user@example.org" "secret"
    { Data := sampleLoginData, Status := "failure" } rfl (by decide)
  exact ⟨h.2.1, by rw [h.2.2.1]; rfl, by rw [h.2.2.2]; rfl⟩

end thunderdrive
